import Mathlib

/-!
Shallow embedding of the `explainer` crate: the SQLite type-inference core
(`src/lib.rs`, `src/types.rs`, `src/ffi/{statement,connection,row}.rs`),
with theorems checking the specification's claims about it.

The native SQLite engine is modelled as explicit oracle data (per-column
origin facts, catalog metadata, step outcomes), and the Rust functions are
translated into pure Lean functions over those oracles.
-/

namespace Explainer

/-- Rust `DataType` from `src/types.rs`: the closed set of logical column types. -/
inductive DataType where
  | Null
  | Bool
  | Int
  | BigInt
  | Real
  | Text
  | Blob
deriving DecidableEq, Repr

/-- Rust `ColumnType` from `src/types.rs`: a logical type plus optional nullability. -/
structure ColumnType where
  datatype : DataType
  nullable : Option Bool
deriving DecidableEq, Repr

/-- Rust `StatementInfo` from `src/types.rs`: the final report of `get_statement_info`. -/
structure StatementInfo where
  read_only : Bool
  input_length : Nat
  output_length : Nat
  output_types : List (Option ColumnType)
deriving DecidableEq, Repr

/-- SQLite fundamental type code `SQLITE_INTEGER` (libsqlite3). -/
def SQLITE_INTEGER : Int := 1
/-- SQLite fundamental type code `SQLITE_FLOAT` (libsqlite3). -/
def SQLITE_FLOAT : Int := 2
/-- SQLite fundamental type code `SQLITE_TEXT` (libsqlite3). -/
def SQLITE_TEXT : Int := 3
/-- SQLite fundamental type code `SQLITE_BLOB` (libsqlite3). -/
def SQLITE_BLOB : Int := 4
/-- SQLite status code `SQLITE_OK` (libsqlite3). -/
def SQLITE_OK : Int := 0

/-- Rust `ColumnType::from_type_code` from `src/types.rs`: map a runtime type tag
onto a `ColumnType`; recognized tags get `nullable = Some(false)`, anything
else becomes `Null` with `nullable = Some(true)`. -/
def ColumnType.from_type_code (type_code : Int) : ColumnType :=
  (if type_code = SQLITE_INTEGER then some DataType.Int
   else if type_code = SQLITE_FLOAT then some DataType.Real
   else if type_code = SQLITE_TEXT then some DataType.Text
   else if type_code = SQLITE_BLOB then some DataType.Blob
   else none).elim
    { datatype := DataType.Null, nullable := some true }
    (fun v => { datatype := v, nullable := some false })

/-- Rust `char::to_ascii_lowercase`: lower-case a single ASCII letter (code 65–90),
leave every other character unchanged. -/
def asciiToLower (c : Char) : Char :=
  if 65 ≤ c.toNat ∧ c.toNat ≤ 90 then Char.ofNat (c.toNat + 32) else c

/-- Rust `str::to_ascii_lowercase`: ASCII lower-casing of a whole string. -/
def lowerStr (s : String) : String :=
  ⟨s.data.map asciiToLower⟩

/-- Helper for `str::contains`: does the pattern occur as a prefix of the list? -/
def prefixCheck : List Char → List Char → Bool
  | [], _ => true
  | _ :: _, [] => false
  | p :: ps, c :: cs => p = c && prefixCheck ps cs

/-- Helper for `str::contains`: does the pattern occur as a contiguous sublist? -/
def subCheck (pat : List Char) : List Char → Bool
  | [] => prefixCheck pat []
  | c :: cs => prefixCheck pat (c :: cs) || subCheck pat cs

/-- Rust `str::contains(pat)`: substring containment test used by the declared-type
parser. -/
def strContains (s pat : String) : Bool :=
  subCheck pat.data s.data

/-- Rust `DataType::from_str` (the `FromStr` impl in `src/types.rs`): parse a
declared SQL column type string into a `DataType`, case-insensitively, with
exact matches checked before substring heuristics; unmatched strings fail. -/
def DataType.from_str (s : String) : Except String DataType :=
  let t := lowerStr s
  if t = "int4" then .ok DataType.Int
  else if t = "int8" then .ok DataType.BigInt
  else if t = "boolean" ∨ t = "bool" then .ok DataType.Bool
  else if strContains t "int" then
    .ok (if strContains t "big" then DataType.BigInt else DataType.Int)
  else if strContains t "char" ∨ strContains t "clob" ∨ strContains t "text" then
    .ok DataType.Text
  else if strContains t "blob" then .ok DataType.Blob
  else if strContains t "real" ∨ strContains t "floa" ∨ strContains t "doub" then
    .ok DataType.Real
  else .error ("unknown type: " ++ t)

/-- Rust `SqliteError` from `src/ffi/error.rs`: an extended error code plus the
engine's error message. -/
structure SqliteError where
  code : Int
  message : String
deriving DecidableEq, Repr

/-- The `anyhow::Error` values that can flow out of this crate: a wrapped
`SqliteError`, a declared-type parse failure, or any other error. -/
inductive AnyError where
  | sqlite (e : SqliteError)
  | parse (message : String)
  | other (message : String)
deriving DecidableEq, Repr

/-- Oracle data for `sqlite3_column_database_name` / `sqlite3_column_table_name`
/ `sqlite3_column_origin_name` on one result column: each is `none` when the
engine returns a NULL pointer (no resolvable origin). -/
structure ColumnOrigin where
  dbName : Option String
  tableName : Option String
  originName : Option String
deriving DecidableEq, Repr

/-- Oracle data for one `sqlite3_table_column_metadata` call: the returned
status code, the declared type text (`none` when the catalog stores no
declaration), and the not-null flag. -/
structure TableColumnMetadata where
  status : Int
  declaredType : Option String
  notNull : Int
deriving DecidableEq, Repr

/-- Rust `Statement::column_database_type` from `src/ffi/statement.rs`: resolve the
column's origin triple; if any of the three names is NULL return `Ok(None)`;
otherwise query the catalog metadata, propagating a hard `SqliteError` on a
non-OK status; if the declared type text is absent return `Ok(None)`; otherwise
parse it and report nullability from the not-null flag. `origin` and `meta` are
the engine's answers for this column and `dbErr` the connection's last-error
state read by `SqliteError::new` on failure. -/
def column_database_type (origin : ColumnOrigin) (meta : TableColumnMetadata)
    (dbErr : SqliteError) : Except AnyError (Option ColumnType) :=
  if origin.dbName.isNone ∨ origin.tableName.isNone ∨ origin.originName.isNone then
    .ok none
  else if meta.status ≠ SQLITE_OK then
    .error (.sqlite dbErr)
  else
    match meta.declaredType with
    | none => .ok none
    | some s =>
      match DataType.from_str s with
      | .error m => .error (.parse m)
      | .ok datatype => .ok (some { datatype := datatype, nullable := some (meta.notNull == 0) })

/-- Oracle view of one prepared statement, exposing exactly the metadata reads
`get_statement_info` performs: `sqlite3_stmt_readonly`,
`sqlite3_bind_parameter_count`, `sqlite3_column_count`, and the per-index
result of `Statement::column_database_type`. -/
structure PreparedStmt where
  readOnly : Bool
  bindParameterCount : Nat
  columnCount : Nat
  columnDatabaseType : Nat → Except AnyError (Option ColumnType)

/-- Rust `Iterator::collect::<anyhow::Result<Vec<_>>>` over a mapped list: collect
the successes in order, short-circuiting on the first error. -/
def mapCollect {ε α β : Type} (f : α → Except ε β) : List α → Except ε (List β)
  | [] => .ok []
  | a :: rest =>
    match f a with
    | .error e => .error e
    | .ok b =>
      match mapCollect f rest with
      | .error e => .error e
      | .ok bs => .ok (b :: bs)

/-- Rust `get_statement_info` from `src/lib.rs`, instrumented: `prep` is the result
of `Connection::establish` + CString conversion + `Connection::prepare`
(collapsed into one `Except`), and `explainResult` the result the
`explain::explain` fallback would return if invoked. Stage t1 collects
`column_database_type` for every column index; if any came back `None` the
fallback is consulted once and merged positionally into the unresolved slots.
The second component counts how many times the fallback call site ran. -/
def get_statement_info (prep : Except AnyError PreparedStmt)
    (explainResult : Except AnyError (List ColumnType)) :
    Except AnyError StatementInfo × Nat :=
  match prep with
  | .error e => (.error e, 0)
  | .ok stmt =>
    match mapCollect stmt.columnDatabaseType (List.range stmt.columnCount) with
    | .error e => (.error e, 0)
    | .ok column_types =>
      if column_types.any Option.isNone then
        match explainResult with
        | .error e => (.error e, 1)
        | .ok explain_column_types =>
          (.ok { read_only := stmt.readOnly
                 input_length := stmt.bindParameterCount
                 output_length := stmt.columnCount
                 output_types := column_types.enum.map
                   (fun p => if p.2.isSome then p.2 else explain_column_types.get? p.1) }, 1)
      else
        (.ok { read_only := stmt.readOnly
               input_length := stmt.bindParameterCount
               output_length := stmt.columnCount
               output_types := column_types }, 0)

/-- Oracle view of preparing-and-running one statement for
`Connection::exec` / `Connection::load_all`: preparation either fails or
yields the rows the engine will produce in order, followed by the terminal
step outcome (`none` = `SQLITE_DONE`, `some e` = a step error). -/
def StmtRun (ρ : Type) : Type := Except SqliteError (List ρ × Option SqliteError)

/-- The `while cont && stmt.step()?` loop inside `Connection::exec`
(`src/ffi/connection.rs`). The `FnMut` visitor is modelled as a state
transformer `σ → ρ → σ × Bool` over its captured environment; the final
environment is returned. `none` as visitor means no callback was supplied. -/
def exec_loop {ρ σ : Type} (visitor : Option (σ → ρ → σ × Bool)) :
    Bool → List ρ → Option SqliteError → σ → Except SqliteError σ
  | false, _, _, s => .ok s
  | true, [], none, s => .ok s
  | true, [], some e, _ => .error e
  | true, r :: rest, term, s =>
    match visitor with
    | none => exec_loop visitor true rest term s
    | some f => exec_loop visitor (f s r).2 rest term (f s r).1

/-- Rust `Connection::exec` from `src/ffi/connection.rs`: prepare the statement and
step it, invoking the visitor once per produced row until it returns `false`,
stepping ends with done, or a step error is propagated. -/
def Connection.exec {ρ σ : Type} (prep : StmtRun ρ)
    (visitor : Option (σ → ρ → σ × Bool)) (s0 : σ) : Except SqliteError σ :=
  match prep with
  | .error e => .error e
  | .ok (rows, term) => exec_loop visitor true rows term s0

/-- Rust `Connection::load_all` from `src/ffi/connection.rs`: run `exec` with a
closure that pushes each mapped row into a vector and stops on the first
mapping error; afterwards surface that error, or the collected values.
`fromSqlite` is the `E: From<SqliteError>` conversion. -/
def Connection.load_all {ρ T E : Type} (fromSqlite : SqliteError → E)
    (prep : StmtRun ρ) (f : ρ → Except E T) : Except E (List T) :=
  match Connection.exec prep
      (some (fun (s : List T × Option E) r =>
        match f r with
        | .ok value => ((s.1 ++ [value], s.2), true)
        | .error e => ((s.1, some e), false)))
      ([], none) with
  | .error e => .error (fromSqlite e)
  | .ok (_, some e) => .error e
  | .ok (result, none) => .ok result

/-- Oracle view of a result row for `src/ffi/row.rs`: for each column index,
the byte content the engine reports (`sqlite3_column_bytes` returns its
length, `sqlite3_column_blob` points at it). -/
structure RawRow where
  bytes : Nat → List Nat

/-- Rust `Row::column_blob` from `src/ffi/row.rs`: read the column's byte length;
a zero length is returned as the empty slice without dereferencing the
pointer; otherwise the pointed-to bytes. -/
def Row.column_blob (row : RawRow) (index : Nat) : List Nat :=
  let len := (row.bytes index).length
  if len = 0 then [] else row.bytes index

/-- UTF-8 validity of a byte sequence (RFC 3629), the check performed by
`std::str::from_utf8`: classify the leading byte, check the required
continuation bytes and the restricted ranges that exclude overlong forms,
surrogates and values above U+10FFFF. -/
def utf8Valid : List Nat → Bool
  | [] => true
  | b :: rest =>
    if b < 0x80 then utf8Valid rest
    else if 0xC2 ≤ b ∧ b ≤ 0xDF then
      match rest with
      | c1 :: rest2 => decide (0x80 ≤ c1 ∧ c1 ≤ 0xBF) && utf8Valid rest2
      | _ => false
    else if 0xE0 ≤ b ∧ b ≤ 0xEF then
      match rest with
      | c1 :: c2 :: rest2 =>
        (decide (0x80 ≤ c1 ∧ c1 ≤ 0xBF) &&
         decide (0x80 ≤ c2 ∧ c2 ≤ 0xBF) &&
         (if b = 0xE0 then decide (0xA0 ≤ c1) else true) &&
         (if b = 0xED then decide (c1 ≤ 0x9F) else true)) && utf8Valid rest2
      | _ => false
    else if 0xF0 ≤ b ∧ b ≤ 0xF4 then
      match rest with
      | c1 :: c2 :: c3 :: rest2 =>
        (decide (0x80 ≤ c1 ∧ c1 ≤ 0xBF) &&
         decide (0x80 ≤ c2 ∧ c2 ≤ 0xBF) &&
         decide (0x80 ≤ c3 ∧ c3 ≤ 0xBF) &&
         (if b = 0xF0 then decide (0x90 ≤ c1) else true) &&
         (if b = 0xF4 then decide (c1 ≤ 0x8F) else true)) && utf8Valid rest2
      | _ => false
    else false

/-- Rust `Row::column_text` from `src/ffi/row.rs`:
`std::str::from_utf8(self.column_blob(index)).unwrap_or("")`. A `&str` is its
UTF-8 byte content, so the read is modelled as returning the blob's bytes when
they are valid UTF-8 and the empty string (`[]`) otherwise. -/
def Row.column_text (row : RawRow) (index : Nat) : List Nat :=
  let b := Row.column_blob row index
  if utf8Valid b then b else []

end Explainer

namespace Explainer

theorem char_toNat_ofNat {n : Nat} (h : n.isValidChar) : (Char.ofNat n).toNat = n := by
  simp only [Char.ofNat, h, dite_true, Char.ofNatAux, Char.toNat, UInt32.toNat]
  rfl

theorem asciiToLower_idem (c : Char) : asciiToLower (asciiToLower c) = asciiToLower c := by
  unfold asciiToLower
  by_cases h : 65 ≤ c.toNat ∧ c.toNat ≤ 90
  · have hv : (c.toNat + 32).isValidChar := Or.inl (by omega)
    have ht : (Char.ofNat (c.toNat + 32)).toNat = c.toNat + 32 := char_toNat_ofNat hv
    rw [if_pos h, if_neg (by rw [ht]; omega)]
  · rw [if_neg h, if_neg h]

theorem map_asciiToLower_idem (l : List Char) :
    (l.map asciiToLower).map asciiToLower = l.map asciiToLower := by
  induction l with
  | nil => rfl
  | cons c rest ih => simp only [List.map_cons, asciiToLower_idem, ih]

theorem lowerStr_idem (s : String) : lowerStr (lowerStr s) = lowerStr s := by
  unfold lowerStr
  exact congrArg String.mk (map_asciiToLower_idem s.data)

theorem from_str_lowerStr (s : String) :
    DataType.from_str s = DataType.from_str (lowerStr s) := by
  unfold DataType.from_str
  rw [lowerStr_idem]

/-- C4: the declared-type parser is case-insensitive
(`from_str s = from_str (lowercase s)`), maps the ten documented strings to
their documented logical types, and returns an unknown-type error (never a
default type) on every string matching none of the documented patterns. -/
theorem declared_type_parse_table :
    (∀ s : String, DataType.from_str s = DataType.from_str (lowerStr s))
    ∧ DataType.from_str "INT4" = .ok DataType.Int
    ∧ DataType.from_str "INT8" = .ok DataType.BigInt
    ∧ DataType.from_str "BIGINT" = .ok DataType.BigInt
    ∧ DataType.from_str "UNSIGNED BIG INT" = .ok DataType.BigInt
    ∧ DataType.from_str "INTEGER" = .ok DataType.Int
    ∧ DataType.from_str "TEXT" = .ok DataType.Text
    ∧ DataType.from_str "CLOB" = .ok DataType.Text
    ∧ DataType.from_str "BLOB" = .ok DataType.Blob
    ∧ DataType.from_str "DOUBLE PRECISION" = .ok DataType.Real
    ∧ DataType.from_str "BOOLEAN" = .ok DataType.Bool
    ∧ (∀ s : String,
        lowerStr s ≠ "int4" → lowerStr s ≠ "int8" →
        lowerStr s ≠ "boolean" → lowerStr s ≠ "bool" →
        strContains (lowerStr s) "int" = false →
        strContains (lowerStr s) "char" = false →
        strContains (lowerStr s) "clob" = false →
        strContains (lowerStr s) "text" = false →
        strContains (lowerStr s) "blob" = false →
        strContains (lowerStr s) "real" = false →
        strContains (lowerStr s) "floa" = false →
        strContains (lowerStr s) "doub" = false →
        DataType.from_str s = .error ("unknown type: " ++ lowerStr s)) := by
  refine ⟨from_str_lowerStr, by rfl, by rfl, by rfl, by rfl, by rfl, by rfl, by rfl, by rfl,
    by rfl, by rfl, ?_⟩
  intro s h4 h8 hb hbo hint hchar hclob htext hblob hreal hfloa hdoub
  unfold DataType.from_str
  rw [if_neg h4, if_neg h8, if_neg (by tauto),
    if_neg (by simp [hint]), if_neg (by simp [hchar, hclob, htext]),
    if_neg (by simp [hblob]), if_neg (by simp [hreal, hfloa, hdoub])]

/-- Witness for C4: the unrecognized string `"xyz"` fails with the
unknown-type error. -/
theorem declared_type_parse_table_witness :
    DataType.from_str "xyz" = .error ("unknown type: " ++ lowerStr "xyz") :=
  declared_type_parse_table.2.2.2.2.2.2.2.2.2.2.2 "xyz" (by decide) (by decide) (by decide)
    (by decide) (by rfl) (by rfl) (by rfl) (by rfl) (by rfl) (by rfl) (by rfl) (by rfl)

/-- C5: the exact matches `"int4"`, `"int8"`, `"boolean"`, `"bool"` are decided
before the substring rules (in particular `"int8"` satisfies the `"int"`
substring premise without containing `"big"` yet yields `BigInt`), and every
lowercased input that is none of the exact matches but contains `"int"` parses
to `BigInt` when it also contains `"big"` and to `Int` otherwise. -/
theorem declared_type_exact_priority :
    DataType.from_str "int4" = .ok DataType.Int
    ∧ DataType.from_str "int8" = .ok DataType.BigInt
    ∧ DataType.from_str "boolean" = .ok DataType.Bool
    ∧ DataType.from_str "bool" = .ok DataType.Bool
    ∧ strContains (lowerStr "int8") "int" = true
    ∧ strContains (lowerStr "int8") "big" = false
    ∧ (∀ s : String,
        lowerStr s ≠ "int4" → lowerStr s ≠ "int8" →
        lowerStr s ≠ "boolean" → lowerStr s ≠ "bool" →
        strContains (lowerStr s) "int" = true →
        DataType.from_str s =
          .ok (if strContains (lowerStr s) "big" then DataType.BigInt else DataType.Int)) := by
  refine ⟨by rfl, by rfl, by rfl, by rfl, by rfl, by rfl, ?_⟩
  intro s h4 h8 hb hbo hint
  unfold DataType.from_str
  rw [if_neg h4, if_neg h8, if_neg (by tauto), if_pos hint]

/-- Witness for C5: `"MEDIUMINT"` is no exact match, contains `"int"` but not
`"big"`, and parses to `Int`. -/
theorem declared_type_exact_priority_witness :
    DataType.from_str "MEDIUMINT" =
      .ok (if strContains (lowerStr "MEDIUMINT") "big" then DataType.BigInt else DataType.Int) :=
  declared_type_exact_priority.2.2.2.2.2.2 "MEDIUMINT" (by decide) (by decide) (by decide)
    (by decide) (by rfl)

/-- C6: every runtime type code other than the integer, float, text and blob
tags is mapped by `ColumnType::from_type_code` to datatype `Null` with
`nullable = Some(true)`. -/
theorem from_type_code_unrecognized_null (type_code : Int)
    (hi : type_code ≠ SQLITE_INTEGER) (hf : type_code ≠ SQLITE_FLOAT)
    (ht : type_code ≠ SQLITE_TEXT) (hb : type_code ≠ SQLITE_BLOB) :
    ColumnType.from_type_code type_code =
      { datatype := DataType.Null, nullable := some true } := by
  unfold ColumnType.from_type_code
  rw [if_neg hi, if_neg hf, if_neg ht, if_neg hb]
  rfl

/-- Witness for C6: the `SQLITE_NULL` tag `5` is unrecognized and maps to
`Null` / `nullable = Some(true)`. -/
theorem from_type_code_unrecognized_null_witness :
    ColumnType.from_type_code 5 = { datatype := DataType.Null, nullable := some true } :=
  from_type_code_unrecognized_null 5 (by decide) (by decide) (by decide) (by decide)

/-- C9: each recognized runtime type tag maps to its corresponding datatype
with `nullable` fixed to `Some(false)`. -/
theorem from_type_code_recognized_nonnull :
    ColumnType.from_type_code SQLITE_INTEGER =
      { datatype := DataType.Int, nullable := some false }
    ∧ ColumnType.from_type_code SQLITE_FLOAT =
      { datatype := DataType.Real, nullable := some false }
    ∧ ColumnType.from_type_code SQLITE_TEXT =
      { datatype := DataType.Text, nullable := some false }
    ∧ ColumnType.from_type_code SQLITE_BLOB =
      { datatype := DataType.Blob, nullable := some false } := by
  refine ⟨by decide, by decide, by decide, by decide⟩

/-- C3: schema column-type lookup returns `Ok(None)` when any origin fact is
NULL; propagates a hard `SqliteError` when the origin resolved but the catalog
metadata query returns a non-OK status; returns `Ok(None)` when the declared
type text is absent; and otherwise returns the parsed declared type with
`nullable = Some(true)` exactly when the catalog's not-null flag is unset. -/
theorem column_database_type_cases (origin : ColumnOrigin) (meta : TableColumnMetadata)
    (dbErr : SqliteError) :
    ((origin.dbName = none ∨ origin.tableName = none ∨ origin.originName = none) →
      column_database_type origin meta dbErr = .ok none)
    ∧ (origin.dbName.isSome = true → origin.tableName.isSome = true →
       origin.originName.isSome = true →
       (meta.status ≠ SQLITE_OK →
         column_database_type origin meta dbErr = .error (.sqlite dbErr))
       ∧ (meta.status = SQLITE_OK → meta.declaredType = none →
         column_database_type origin meta dbErr = .ok none)
       ∧ (∀ s dt, meta.status = SQLITE_OK → meta.declaredType = some s →
           DataType.from_str s = .ok dt →
           (meta.notNull = 0 →
             column_database_type origin meta dbErr =
               .ok (some { datatype := dt, nullable := some true }))
           ∧ (meta.notNull ≠ 0 →
             column_database_type origin meta dbErr =
               .ok (some { datatype := dt, nullable := some false })))) := by
  constructor
  · intro h
    unfold column_database_type
    rw [if_pos]
    rcases h with h | h | h <;> simp [h]
  · intro hd ht ho
    have hcond : ¬ (origin.dbName.isNone = true ∨ origin.tableName.isNone = true ∨
        origin.originName.isNone = true) := by
      simp only [Option.isNone_iff_eq_none]
      simp only [Option.isSome_iff_ne_none] at hd ht ho
      tauto
    refine ⟨?_, ?_, ?_⟩
    · intro hst
      unfold column_database_type
      rw [if_neg hcond, if_pos hst]
    · intro hst hdt
      unfold column_database_type
      rw [if_neg hcond, if_neg (by simp [hst]), hdt]
    · intro s dt hst hdt hparse
      constructor
      · intro hn
        unfold column_database_type
        rw [if_neg hcond, if_neg (by simp [hst]), hdt]
        simp [hparse, hn]
      · intro hn
        unfold column_database_type
        rw [if_neg hcond, if_neg (by simp [hst]), hdt]
        simp [hparse, hn]

/-- Witness for C3: a fully resolved origin for a `bigint` column with the
not-null flag unset yields `Some(BigInt, nullable = Some(true))`. -/
theorem column_database_type_cases_witness :
    column_database_type
      { dbName := some "main", tableName := some "kv", originName := some "value" }
      { status := 0, declaredType := some "bigint", notNull := 0 }
      { code := 1, message := "e" } =
    .ok (some { datatype := DataType.BigInt, nullable := some true }) :=
  ((column_database_type_cases
      { dbName := some "main", tableName := some "kv", originName := some "value" }
      { status := 0, declaredType := some "bigint", notNull := 0 }
      { code := 1, message := "e" }).2 (by rfl) (by rfl) (by rfl)).2.2
    "bigint" DataType.BigInt (by rfl) (by rfl) (by rfl) |>.1 (by decide)

/-- C7: row reads are total: a blob read with reported length zero yields the
empty slice, and a text read over bytes that are not valid UTF-8 yields the
empty string. -/
theorem row_reads_total (row : RawRow) (index : Nat) :
    ((row.bytes index).length = 0 → Row.column_blob row index = [])
    ∧ (utf8Valid (Row.column_blob row index) = false → Row.column_text row index = []) := by
  constructor
  · intro h
    unfold Row.column_blob
    simp [h]
  · intro h
    unfold Row.column_text
    simp [h]

/-- Witness for C7: on a row whose column 0 holds the invalid UTF-8 byte
`0xFF` and whose column 1 is empty, the text read of column 0 is the empty
string and the blob read of column 1 is the empty slice. -/
theorem row_reads_total_witness :
    Row.column_text { bytes := fun i => if i = 0 then [255] else [] } 0 = []
    ∧ Row.column_blob { bytes := fun i => if i = 0 then [255] else [] } 1 = [] :=
  ⟨(row_reads_total { bytes := fun i => if i = 0 then [255] else [] } 0).2 (by rfl),
   (row_reads_total { bytes := fun i => if i = 0 then [255] else [] } 1).1 (by rfl)⟩

theorem mapCollect_ok_length {ε α β : Type} (f : α → Except ε β) (l : List α) (res : List β)
    (h : mapCollect f l = .ok res) : res.length = l.length := by
  induction l generalizing res with
  | nil =>
    simp only [mapCollect, Except.ok.injEq] at h
    subst h
    rfl
  | cons a rest ih =>
    simp only [mapCollect] at h
    cases hf : f a with
    | error e => rw [hf] at h; cases h
    | ok b =>
      rw [hf] at h
      cases hr : mapCollect f rest with
      | error e => rw [hr] at h; cases h
      | ok bs =>
        rw [hr] at h
        simp only [Except.ok.injEq] at h
        subst h
        simp [ih bs hr]

theorem mapCollect_ok_getElem? {ε α β : Type} (f : α → Except ε β) (l : List α) (res : List β)
    (h : mapCollect f l = .ok res) (i : Nat) (a : α) (ha : l[i]? = some a) :
    ∃ b, f a = .ok b ∧ res[i]? = some b := by
  induction l generalizing res i with
  | nil => simp at ha
  | cons x rest ih =>
    simp only [mapCollect] at h
    cases hf : f x with
    | error e => rw [hf] at h; cases h
    | ok b =>
      rw [hf] at h
      cases hr : mapCollect f rest with
      | error e => rw [hr] at h; cases h
      | ok bs =>
        rw [hr] at h
        simp only [Except.ok.injEq] at h
        subst h
        cases i with
        | zero =>
          simp only [List.getElem?_cons_zero, Option.some.injEq] at ha
          subst ha
          exact ⟨b, hf, by simp⟩
        | succ n =>
          simp only [List.getElem?_cons_succ] at ha
          obtain ⟨b2, hb2, hres⟩ := ih bs hr n ha
          exact ⟨b2, hb2, by simpa using hres⟩

theorem mapCollect_ok_getElem?_rev {ε α β : Type} (f : α → Except ε β) (l : List α)
    (res : List β) (h : mapCollect f l = .ok res) (i : Nat) (b : β)
    (hb : res[i]? = some b) : ∃ a, l[i]? = some a ∧ f a = .ok b := by
  induction l generalizing res i with
  | nil =>
    simp only [mapCollect, Except.ok.injEq] at h
    subst h
    simp at hb
  | cons x rest ih =>
    simp only [mapCollect] at h
    cases hf : f x with
    | error e => rw [hf] at h; cases h
    | ok c =>
      rw [hf] at h
      cases hr : mapCollect f rest with
      | error e => rw [hr] at h; cases h
      | ok bs =>
        rw [hr] at h
        simp only [Except.ok.injEq] at h
        subst h
        cases i with
        | zero =>
          simp only [List.getElem?_cons_zero, Option.some.injEq] at hb
          subst hb
          exact ⟨x, by simp, hf⟩
        | succ n =>
          simp only [List.getElem?_cons_succ] at hb
          obtain ⟨a, ha, hfa⟩ := ih bs hr n hb
          exact ⟨a, by simpa using ha, hfa⟩

/-- C1: whenever `get_statement_info` succeeds, the report satisfies
`output_types.length = output_length = column_count` — also when the fallback
result list is shorter or longer than `column_count` — and `input_length` equals
the statement's bound-parameter count. -/
theorem statement_info_lengths_agree (stmt : PreparedStmt)
    (explainResult : Except AnyError (List ColumnType)) (info : StatementInfo)
    (h : (get_statement_info (.ok stmt) explainResult).1 = .ok info) :
    info.output_types.length = info.output_length
    ∧ info.output_length = stmt.columnCount
    ∧ info.input_length = stmt.bindParameterCount := by
  cases ht1 : mapCollect stmt.columnDatabaseType (List.range stmt.columnCount) with
  | error e =>
    simp only [get_statement_info, ht1] at h
    exact Except.noConfusion h
  | ok column_types =>
    have hlen : column_types.length = stmt.columnCount := by
      simpa using mapCollect_ok_length _ _ _ ht1
    by_cases hu : column_types.any Option.isNone
    · cases hex : explainResult with
      | error e =>
        simp only [get_statement_info, ht1, hex, if_pos hu] at h
        exact Except.noConfusion h
      | ok exl =>
        simp only [get_statement_info, ht1, hex, if_pos hu, Except.ok.injEq] at h
        subst h
        refine ⟨?_, rfl, rfl⟩
        simp [hlen]
    · simp only [get_statement_info, ht1, if_neg hu, Except.ok.injEq] at h
      subst h
      exact ⟨hlen, rfl, rfl⟩

/-- Witness for C1: a two-column statement with one unresolved column and a
fallback result shorter than `column_count` still reports matching lengths. -/
theorem statement_info_lengths_agree_witness :
    ({ read_only := false, input_length := 3, output_length := 2,
       output_types := [some ⟨DataType.Int, some false⟩, none] } : StatementInfo).output_types.length =
      ({ read_only := false, input_length := 3, output_length := 2,
         output_types := [some ⟨DataType.Int, some false⟩, none] } : StatementInfo).output_length
    ∧ ({ read_only := false, input_length := 3, output_length := 2,
         output_types := [some ⟨DataType.Int, some false⟩, none] } : StatementInfo).output_length =
      ({ readOnly := false, bindParameterCount := 3, columnCount := 2,
         columnDatabaseType := fun i =>
           if i = 0 then .ok (some ⟨DataType.Int, some false⟩) else .ok none } : PreparedStmt).columnCount
    ∧ ({ read_only := false, input_length := 3, output_length := 2,
         output_types := [some ⟨DataType.Int, some false⟩, none] } : StatementInfo).input_length =
      ({ readOnly := false, bindParameterCount := 3, columnCount := 2,
         columnDatabaseType := fun i =>
           if i = 0 then .ok (some ⟨DataType.Int, some false⟩) else .ok none } : PreparedStmt).bindParameterCount :=
  statement_info_lengths_agree
    { readOnly := false, bindParameterCount := 3, columnCount := 2,
      columnDatabaseType := fun i =>
        if i = 0 then .ok (some ⟨DataType.Int, some false⟩) else .ok none }
    (.ok [])
    { read_only := false, input_length := 3, output_length := 2,
      output_types := [some ⟨DataType.Int, some false⟩, none] }
    (by rfl)

/-- C2: given that the schema stage succeeded with results `t1`, the fallback
call site runs exactly once iff some column's schema lookup returned `None`
(and never more than once); every column whose schema lookup returned `Some`
keeps that result unchanged in the final report; and every still-unresolved
column receives the fallback's entry at its position (`None` when the fallback
list has no such position). -/
theorem fallback_merge_once (stmt : PreparedStmt) (ex : Except AnyError (List ColumnType))
    (t1 : List (Option ColumnType))
    (ht1 : mapCollect stmt.columnDatabaseType (List.range stmt.columnCount) = .ok t1) :
    ((get_statement_info (.ok stmt) ex).2 = 1 ↔
      ∃ i, i < stmt.columnCount ∧ stmt.columnDatabaseType i = .ok none)
    ∧ (get_statement_info (.ok stmt) ex).2 ≤ 1
    ∧ (∀ i ct info, stmt.columnDatabaseType i = .ok (some ct) → i < stmt.columnCount →
        (get_statement_info (.ok stmt) ex).1 = .ok info →
        info.output_types[i]? = some (some ct))
    ∧ (∀ i info exl, stmt.columnDatabaseType i = .ok none → i < stmt.columnCount →
        ex = .ok exl →
        (get_statement_info (.ok stmt) ex).1 = .ok info →
        info.output_types[i]? = some exl[i]?) := by
  have hlen : t1.length = stmt.columnCount := by
    simpa using mapCollect_ok_length _ _ _ ht1
  have ht1get : ∀ i, i < stmt.columnCount →
      ∃ b, stmt.columnDatabaseType i = .ok b ∧ t1[i]? = some b := by
    intro i hi
    exact mapCollect_ok_getElem? _ _ _ ht1 i i (List.getElem?_range hi)
  have hiff : t1.any Option.isNone = true ↔
      ∃ i, i < stmt.columnCount ∧ stmt.columnDatabaseType i = .ok none := by
    constructor
    · intro h
      obtain ⟨v, hv, hvn⟩ := List.any_eq_true.mp h
      obtain ⟨i, hi⟩ := List.getElem?_of_mem hv
      have hvnone : v = none := Option.isNone_iff_eq_none.mp hvn
      subst hvnone
      obtain ⟨a, ha, hfa⟩ := mapCollect_ok_getElem?_rev _ _ _ ht1 i none hi
      have hilt : i < stmt.columnCount := by
        have := (List.getElem?_eq_some_iff.mp ha).1
        simpa using this
      have hai : a = i := by
        have := List.getElem?_range hilt
        rw [this] at ha
        exact (Option.some.injEq _ _ ▸ ha).symm
      exact ⟨i, hilt, hai ▸ hfa⟩
    · rintro ⟨i, hi, hf⟩
      obtain ⟨b, hb, hbt⟩ := ht1get i hi
      rw [hf] at hb
      have hbn : b = none := by
        simpa using hb.symm
      subst hbn
      exact List.any_eq_true.mpr ⟨none, List.getElem?_mem hbt, rfl⟩
  have hcount : (get_statement_info (.ok stmt) ex).2 =
      if t1.any Option.isNone then 1 else 0 := by
    by_cases hu : t1.any Option.isNone
    · cases hex : ex with
      | error e => simp [get_statement_info, ht1, hex, hu]
      | ok exl => simp [get_statement_info, ht1, hex, hu]
    · simp [get_statement_info, ht1, hu]
  refine ⟨?_, ?_, ?_, ?_⟩
  · rw [hcount]
    by_cases hu : t1.any Option.isNone
    · simpa [hu] using hiff
    · simp only [hu, if_false]
      constructor
      · intro h
        exact absurd h (by norm_num)
      · intro h
        exact absurd (hiff.mpr h) (by simp [hu])
  · rw [hcount]
    by_cases hu : t1.any Option.isNone <;> simp [hu]
  · intro i ct info hf hi hok
    obtain ⟨b, hb, hbt⟩ := ht1get i hi
    rw [hf] at hb
    have hbct : b = some ct := by simpa using hb.symm
    subst hbct
    by_cases hu : t1.any Option.isNone
    · cases hex : ex with
      | error e =>
        simp only [get_statement_info, ht1, hex, if_pos hu] at hok
        exact Except.noConfusion hok
      | ok exl =>
        simp only [get_statement_info, ht1, hex, if_pos hu, Except.ok.injEq] at hok
        subst hok
        simp only [List.getElem?_map, List.getElem?_enum, hbt]
        rfl
    · simp only [get_statement_info, ht1, if_neg hu, Except.ok.injEq] at hok
      subst hok
      exact hbt
  · intro i info exl hf hi hexl hok
    obtain ⟨b, hb, hbt⟩ := ht1get i hi
    rw [hf] at hb
    have hbn : b = none := by simpa using hb.symm
    subst hbn
    have hu : t1.any Option.isNone = true :=
      hiff.mpr ⟨i, hi, hf⟩
    subst hexl
    simp only [get_statement_info, ht1, if_pos hu, Except.ok.injEq] at hok
    subst hok
    simp only [List.getElem?_map, List.getElem?_enum, hbt]
    simp [List.get?_eq_getElem?]

/-- Witness for C2: in a two-column statement whose second column is
unresolved, the merged report takes the fallback's entry at position 1. -/
theorem fallback_merge_once_witness :
    ({ read_only := true, input_length := 0, output_length := 2,
       output_types := [some ⟨DataType.Int, some false⟩, some ⟨DataType.Text, none⟩] } :
        StatementInfo).output_types[1]? =
    some (([⟨DataType.Real, none⟩, ⟨DataType.Text, none⟩] : List ColumnType)[1]?) :=
  (fallback_merge_once
    { readOnly := true, bindParameterCount := 0, columnCount := 2,
      columnDatabaseType := fun i =>
        if i = 0 then .ok (some ⟨DataType.Int, some false⟩) else .ok none }
    (.ok [⟨DataType.Real, none⟩, ⟨DataType.Text, none⟩])
    [some ⟨DataType.Int, some false⟩, none] (by rfl)).2.2.2 1
    { read_only := true, input_length := 0, output_length := 2,
      output_types := [some ⟨DataType.Int, some false⟩, some ⟨DataType.Text, none⟩] }
    [⟨DataType.Real, none⟩, ⟨DataType.Text, none⟩] (by rfl) (by decide) rfl (by rfl)

theorem exec_loop_trace_all_true {ρ : Type} (f : ρ → Bool) (rows : List ρ)
    (h : ∀ r ∈ rows, f r = true) (term : Option SqliteError) (acc : List ρ) :
    exec_loop (some (fun (vs : List ρ) r => (vs ++ [r], f r))) true rows term acc =
      (match term with
       | none => .ok (acc ++ rows)
       | some e => .error e) := by
  induction rows generalizing acc with
  | nil => cases term <;> simp [exec_loop]
  | cons r rest ih =>
    have hr : f r = true := h r (by simp)
    simp only [exec_loop, hr]
    rw [ih (fun x hx => h x (by simp [hx])) (acc ++ [r])]
    cases term <;> simp

theorem exec_loop_trace_stop {ρ : Type} (f : ρ → Bool) (pre : List ρ) (r : ρ)
    (post : List ρ) (hpre : ∀ x ∈ pre, f x = true) (hr : f r = false)
    (term : Option SqliteError) (acc : List ρ) :
    exec_loop (some (fun (vs : List ρ) r => (vs ++ [r], f r))) true (pre ++ r :: post) term acc =
      .ok (acc ++ pre ++ [r]) := by
  induction pre generalizing acc with
  | nil =>
    simp only [List.nil_append, exec_loop, hr]
    simp [exec_loop]
  | cons x rest ih =>
    have hx : f x = true := hpre x (by simp)
    simp only [List.cons_append, exec_loop, hx]
    have := ih (fun y hy => hpre y (by simp [hy])) (acc ++ [x])
    simpa using this

/-- C8: `exec` prepares the statement and steps it, invoking the visitor once
per produced row in order (witnessed by the visitor's trace state): it visits
every row and ends when stepping reports done, propagates a `StepError` when
stepping reports one after the visited rows, stops — with no further visits —
as soon as the visitor returns `false`, and propagates a prepare failure. -/
theorem exec_visits_rows {ρ : Type} (rows : List ρ) (f : ρ → Bool) (e : SqliteError) :
    ((∀ r ∈ rows, f r = true) →
      Connection.exec (.ok (rows, none))
        (some (fun (vs : List ρ) r => (vs ++ [r], f r))) [] = .ok rows)
    ∧ ((∀ r ∈ rows, f r = true) →
      Connection.exec (.ok (rows, some e))
        (some (fun (vs : List ρ) r => (vs ++ [r], f r))) [] = .error e)
    ∧ (∀ pre r post, rows = pre ++ r :: post → (∀ x ∈ pre, f x = true) → f r = false →
      ∀ term, Connection.exec (.ok (rows, term))
        (some (fun (vs : List ρ) r => (vs ++ [r], f r))) [] = .ok (pre ++ [r]))
    ∧ (∀ e2 : SqliteError, Connection.exec (.error e2)
        (some (fun (vs : List ρ) r => (vs ++ [r], f r))) ([] : List ρ) = .error e2) := by
  refine ⟨?_, ?_, ?_, ?_⟩
  · intro h
    simp only [Connection.exec]
    rw [exec_loop_trace_all_true f rows h none []]
    simp
  · intro h
    simp only [Connection.exec]
    rw [exec_loop_trace_all_true f rows h (some e) []]
  · intro pre r post hrows hpre hr term
    subst hrows
    simp only [Connection.exec]
    rw [exec_loop_trace_stop f pre r post hpre hr term []]
    simp
  · intro e2
    rfl

/-- Witness for C8: over rows `[10, 20, 30]` with a visitor that continues
while the row is below 20, `exec` visits rows 10 and 20 in order and stops. -/
theorem exec_visits_rows_witness :
    Connection.exec (.ok ([10, 20, 30], none))
      (some (fun (vs : List Nat) r => (vs ++ [r], r < 20))) [] = .ok ([10] ++ [20]) :=
  (exec_visits_rows [10, 20, 30] (fun r => r < 20) { code := 0, message := "" }).2.2.1
    [10] 20 [30] (by rfl) (by decide) (by decide) none

theorem load_all_loop_ok {ρ T E : Type} (f : ρ → Except E T) (rows : List ρ)
    (vals : List T) (h : mapCollect f rows = .ok vals) (acc : List T) :
    exec_loop (some (fun (s : List T × Option E) r =>
        match f r with
        | .ok value => ((s.1 ++ [value], s.2), true)
        | .error e => ((s.1, some e), false)))
      true rows none (acc, (none : Option E)) = .ok (acc ++ vals, none) := by
  induction rows generalizing vals acc with
  | nil =>
    simp only [mapCollect, Except.ok.injEq] at h
    subst h
    simp [exec_loop]
  | cons r rest ih =>
    simp only [mapCollect] at h
    cases hf : f r with
    | error e => rw [hf] at h; cases h
    | ok v =>
      rw [hf] at h
      cases hrest : mapCollect f rest with
      | error e => rw [hrest] at h; cases h
      | ok vs =>
        rw [hrest] at h
        simp only [Except.ok.injEq] at h
        subst h
        simp only [exec_loop, hf]
        rw [ih vs hrest (acc ++ [v])]
        simp

theorem load_all_loop_err {ρ T E : Type} (f : ρ → Except E T) (pre : List ρ) (r : ρ)
    (post : List ρ) (e : E) (hpre : ∀ x ∈ pre, (f x).isOk = true) (hr : f r = .error e)
    (term : Option SqliteError) (acc : List T) :
    ∃ vs, exec_loop (some (fun (s : List T × Option E) r =>
        match f r with
        | .ok value => ((s.1 ++ [value], s.2), true)
        | .error e => ((s.1, some e), false)))
      true (pre ++ r :: post) term (acc, (none : Option E)) = .ok (vs, some e) := by
  induction pre generalizing acc with
  | nil =>
    refine ⟨acc, ?_⟩
    simp [exec_loop, hr]
  | cons x rest ih =>
    have hx : (f x).isOk = true := hpre x (by simp)
    cases hfx : f x with
    | error e2 => rw [hfx] at hx; cases hx
    | ok v =>
      obtain ⟨vs, hvs⟩ := ih (fun y hy => hpre y (by simp [hy])) (acc ++ [v])
      refine ⟨vs, ?_⟩
      simp only [List.cons_append, exec_loop, hfx]
      exact hvs

/-- C10: `load_all` returns the list of the row-mapping function's results in
row order when the mapping succeeds on every row (and stepping ends with
done), and stops at the first failing row, returning that row's error and
discarding the values accumulated before it. -/
theorem load_all_results {ρ T E : Type} (fromS : SqliteError → E) (rows : List ρ)
    (f : ρ → Except E T) :
    (∀ vals, mapCollect f rows = .ok vals →
      Connection.load_all fromS (.ok (rows, none)) f = .ok vals)
    ∧ (∀ pre r post e, rows = pre ++ r :: post →
        (∀ x ∈ pre, (f x).isOk = true) → f r = .error e →
      ∀ term, Connection.load_all fromS (.ok (rows, term)) f = .error e) := by
  constructor
  · intro vals h
    simp only [Connection.load_all, Connection.exec]
    rw [load_all_loop_ok f rows vals h []]
    simp
  · intro pre r post e hrows hpre hr term
    subst hrows
    simp only [Connection.load_all, Connection.exec]
    obtain ⟨vs, hvs⟩ := load_all_loop_err f pre r post e hpre hr term []
    rw [hvs]

/-- Witness for C10: mapping `r + 1` over rows `[10, 20]` collects `[11, 21]`
in order. -/
theorem load_all_results_witness :
    Connection.load_all (E := AnyError) (fun e => .sqlite e) (.ok ([10, 20], none))
      (fun r : Nat => .ok (r + 1)) = .ok [11, 21] :=
  (load_all_results (fun e => AnyError.sqlite e) [10, 20] (fun r : Nat => .ok (r + 1))).1
    [11, 21] (by rfl)

end Explainer


